import Mathlib

/-!
Verification development for the region-syncer subsystem
(`server/region_syncer/server.go`) and the label scheduler
(`server/schedulers/label.go`) of the pd placement coordinator.

Pure Go functions are embedded as Lean functions; the long-running loops
(`RunServer`, `Sync`) are embedded as per-event step functions whose
outputs record the observable effects (messages sent, streams bound,
session outcome) of one iteration of the loop.
-/

namespace Syncer

/-- `maxSyncRegionBatchSize` from `server.go`: the drain cap of the
broadcast loop. -/
def maxSyncRegionBatchSize : Nat := 100

/-- `defaultHistoryBufferSize` from `server.go`. -/
def defaultHistoryBufferSize : Nat := 10000

/-- Embeds `metapb.Region`. Only identity is ever inspected by the code
under verification, so the remaining metadata fields are elided. -/
structure Region where
  id : Nat
  deriving DecidableEq, Repr

/-- Embeds `core.RegionInfo`; `meta` is what `GetMeta()` returns. -/
structure RegionInfo where
  meta : Region
  deriving DecidableEq, Repr

/-- Modelled from the spec: the History Buffer implementation
(`history_buffer.go`) is not among the shown sources; this structure
follows spec section 4.1. Entry `i` of `entries` carries History Buffer
index `startIndex + i`, so the retained span is
`[startIndex, startIndex + entries.length)`. The durable watermark
collaborator is elided (it never feeds back into control flow here). -/
structure HistoryBuffer where
  capacity : Nat
  startIndex : Nat
  entries : List RegionInfo
  deriving DecidableEq, Repr

namespace HistoryBuffer

/-- Modelled from the spec: `nextIndex() -> uint64`, a pure peek at the
next index to assign (`GetNextIndex` at the call sites in `server.go`). -/
def nextIndex (h : HistoryBuffer) : Nat :=
  h.startIndex + h.entries.length

/-- Modelled from the spec: `record(r)` assigns index `nextIndex`,
appends, advances `nextIndex`; if size exceeds the capacity it evicts
the oldest entry and advances `startIndex` (`Record` at the call sites
in `server.go`). -/
def record (h : HistoryBuffer) (r : RegionInfo) : HistoryBuffer :=
  if h.capacity < (h.entries ++ [r]).length then
    { capacity := h.capacity, startIndex := h.startIndex + 1,
      entries := (h.entries ++ [r]).drop 1 }
  else
    { capacity := h.capacity, startIndex := h.startIndex, entries := h.entries ++ [r] }

/-- Modelled from the spec: `recordsFrom(idx)` returns all retained
entries with index at least `idx`, ascending; empty when `idx` is below
`startIndex` (history evicted) or at or beyond `nextIndex`
(`RecordsFrom` at the call sites in `server.go`). -/
def recordsFrom (h : HistoryBuffer) (idx : Nat) : List RegionInfo :=
  if idx < h.startIndex then [] else h.entries.drop (idx - h.startIndex)

/-- Recording a list of regions in order. -/
def recordAll (h : HistoryBuffer) (rs : List RegionInfo) : HistoryBuffer :=
  rs.foldl record h

/-- The History Buffer indices assigned to `rs` when recorded in order
starting from state `h`: each `record` assigns the current `nextIndex`. -/
def assignedIndices (h : HistoryBuffer) : List RegionInfo → List Nat
  | [] => []
  | r :: rest => h.nextIndex :: assignedIndices (h.record r) rest

end HistoryBuffer

/-- Embeds `pdpb.SyncRegionResponse` (header cluster id flattened in). -/
structure SyncRegionResponse where
  clusterId : Nat
  regions : List Region
  startIndex : Nat
  deriving DecidableEq, Repr

/-- Result of one pass of the `regionNotifier` branch of `RunServer`:
the updated history, the batch message broadcast, and the notifications
still queued for a later cycle. -/
structure NotifyResult where
  history : HistoryBuffer
  message : SyncRegionResponse
  remaining : List RegionInfo
  deriving Repr

/-- Embeds the `case first := <-regionNotifier` branch of `RunServer`
(`server.go` lines 95-110): append `first`, capture
`startIndex := history.GetNextIndex()`, record `first`, read
`pending := len(regionNotifier)` (the length of `queued`), then drain
`i < pending && i < maxSyncRegionBatchSize` further notifications,
recording each; finally build the batch message and broadcast it. -/
def runNotifyStep (clusterId : Nat) (h : HistoryBuffer)
    (first : RegionInfo) (queued : List RegionInfo) : NotifyResult :=
  let startIndex := h.nextIndex
  let h1 := h.record first
  let pending := queued.length
  let n := min pending maxSyncRegionBatchSize
  let drained := queued.take n
  let h2 := h1.recordAll drained
  { history := h2
    message :=
      { clusterId := clusterId
        regions := first.meta :: drained.map RegionInfo.meta
        startIndex := startIndex }
    remaining := queued.drop n }

/-- Embeds the `case <-ticker.C` branch of `RunServer` (`server.go`
lines 111-116): the keep-alive message has no regions and carries
`StartIndex = history.GetNextIndex()`. -/
def runTickStep (clusterId : Nat) (h : HistoryBuffer) : SyncRegionResponse :=
  { clusterId := clusterId, regions := [], startIndex := h.nextIndex }

/-- Embeds a `ServerStream`: `sendOk msg` tells whether `Send(msg)` on
this stream succeeds (`err == nil`) or fails. -/
structure ServerStream where
  sendOk : SyncRegionResponse → Bool

/-- The registered-follower table `streams map[string]ServerStream`,
embedded as an association list with pairwise-distinct keys (a Go map
cannot hold a key twice). -/
def StreamTable : Type := List (String × ServerStream)

/-- Embeds the read-locked iteration of `broadcast` (`server.go` lines
184-192): walks the table in order attempting one `Send` per entry,
returning the names whose send failed and the names to which a send was
attempted, both in iteration order. -/
def broadcastCollect : List (String × ServerStream) → SyncRegionResponse →
    List String × List String
  | [], _ => ([], [])
  | (name, sender) :: rest, msg =>
    let r := broadcastCollect rest msg
    if sender.sendOk msg then (r.1, name :: r.2)
    else (name :: r.1, name :: r.2)

/-- Embeds the write-locked removal loop of `broadcast` (`server.go`
lines 193-200): `delete(s.streams, name)` for each failed name, logging
each deleted name. -/
def deleteStreams (table : List (String × ServerStream))
    (failed : List String) : List (String × ServerStream) :=
  failed.foldl (fun t name => t.filter fun e => e.1 ≠ name) table

/-- Result of one `broadcast` call: the table afterwards, the names
removed (each one logged), and the names to which a send was attempted. -/
structure BroadcastResult where
  table : List (String × ServerStream)
  removed : List String
  attempted : List String

/-- Embeds `broadcast` (`server.go` lines 182-201). -/
def broadcast (table : List (String × ServerStream))
    (msg : SyncRegionResponse) : BroadcastResult :=
  let r := broadcastCollect table msg
  { table := deleteStreams table r.1, removed := r.1, attempted := r.2 }

/-- Embeds `bindStream` (`server.go` lines 176-180): registers or
replaces the entry for `name` (map assignment). -/
def bindStream (table : List (String × ServerStream)) (name : String)
    (stream : ServerStream) : List (String × ServerStream) :=
  (name, stream) :: table.filter fun e => e.1 ≠ name

/-- Embeds `pdpb.Member`: the follower identity carried by a request. -/
structure Member where
  name : String
  clientUrls : List String

/-- Embeds `pdpb.SyncRegionRequest` (header cluster id flattened in). -/
structure SyncRegionRequest where
  clusterId : Nat
  member : Member
  startIndex : Nat

/-- The outcome of `stream.Recv()` in `Sync`: a clean end-of-input
(`io.EOF`), some other transport error, or a request. -/
inductive RecvResult where
  | eof
  | recvError
  | req (request : SyncRegionRequest)

/-- Embeds `syncHistoryRegion` (`server.go` lines 147-173) as the list
of responses it sends: none when `RecordsFrom` is empty (both the
already-in-sync and the history-evicted log branches return `nil`
without sending), otherwise the single catch-up response. -/
def syncHistoryRegion (clusterId : Nat) (h : HistoryBuffer)
    (request : SyncRegionRequest) : List SyncRegionResponse :=
  let records := h.recordsFrom request.startIndex
  if records.length = 0 then []
  else
    [{ clusterId := clusterId
       regions := records.map RegionInfo.meta
       startIndex := request.startIndex }]

/-- Observable outcome of one iteration of the `Sync` receive loop
(`server.go` lines 124-145): `closed` is the `return nil` on clean EOF;
`transportError` the `return errors.WithStack(err)`; the
`failedPrecondition` constructor carries the needed and received cluster
ids of the mismatch error; `panicked` marks the out-of-bounds
`GetClientUrls()[0]` access in the establishment log statement;
`proceed sent bound` is a completed iteration that sent `sent` and then
bound the stream under name `bound`. -/
inductive SyncOutcome where
  | closed
  | transportError
  | failedPrecondition (need got : Nat)
  | panicked
  | proceed (sent : List SyncRegionResponse) (bound : String)
  deriving DecidableEq

/-- The responses a session iteration sent. -/
def SyncOutcome.sent : SyncOutcome → List SyncRegionResponse
  | .proceed s _ => s
  | _ => []

/-- The stream registration a session iteration performed, if any. -/
def SyncOutcome.bound : SyncOutcome → Option String
  | .proceed _ n => some n
  | _ => none

/-- Whether the iteration ended the session with an error return. -/
def SyncOutcome.isSessionError : SyncOutcome → Bool
  | .closed => false
  | .proceed _ _ => false
  | _ => true

/-- Embeds one iteration of `Sync` (`server.go` lines 124-145): handle
the `Recv` outcome; on a request, check the cluster id against the
server's own, then log the establishment line — whose
`request.GetMember().GetClientUrls()[0]` indexes the client-URL list
without a bounds check — then replay history and bind the stream. -/
def syncStep (clusterId : Nat) (h : HistoryBuffer) (recv : RecvResult) :
    SyncOutcome :=
  match recv with
  | .eof => .closed
  | .recvError => .transportError
  | .req request =>
    if request.clusterId ≠ clusterId then
      .failedPrecondition clusterId request.clusterId
    else
      match request.member.clientUrls[0]? with
      | none => .panicked
      | some _ =>
        .proceed (syncHistoryRegion clusterId h request) request.member.name

end Syncer

namespace LabelSched

/-- Embeds `metapb.StoreLabel` as a key/value pair list element, and
`metapb.Store` with the fields `label.go` reads: `GetId()` and
`Labels`. -/
structure Store where
  id : Nat
  labels : List (String × String)

/-- A peer reference; only `GetStoreId()` is read. Down peers arrive as
`pdpb.PeerStats`, whose `GetPeer().GetStoreId()` is flattened to the
same shape. -/
structure Peer where
  storeId : Nat

/-- Embeds `metapb.RegionEpoch`. -/
structure RegionEpoch where
  confVer : Nat
  version : Nat
  deriving DecidableEq

/-- Embeds `core.RegionInfo` as read by `label.go`: `GetID()`,
`GetRegionEpoch()`, `GetDownPeers()`, `GetPendingPeers()`. -/
structure Region where
  id : Nat
  epoch : RegionEpoch
  downPeers : List Peer
  pendingPeers : List Peer

/-- Embeds the `schedule.Cluster` surface `labelScheduler.Schedule`
consumes; these collaborators live outside the shown sources, so they
are abstract fields quantified over in the theorems. -/
structure Cluster where
  getStores : List Store
  checkLabelProperty : String → List (String × String) → Bool
  randLeaderRegion : Nat → Option Region
  getFollowerStores : Region → List Store

/-- The `schedule.RejectLeader` label-property type constant. -/
def rejectLeader : String := "reject-leader"

/-- Embeds `schedule.OperatorKind` flags; only `OpLeader` is used
here. -/
inductive OperatorKind where
  | opLeader
  | opRegion
  deriving DecidableEq

/-- Embeds the `schedule.TransferLeader` operator step. -/
structure TransferLeaderStep where
  fromStore : Nat
  toStore : Nat
  deriving DecidableEq

/-- Embeds `schedule.Operator` as built by `schedule.NewOperator` in
`label.go`: description, region id, region epoch, kind, single
transfer-leader step. -/
structure Operator where
  desc : String
  regionID : Nat
  epoch : RegionEpoch
  kind : OperatorKind
  step : TransferLeaderStep

/-- Embeds `s.selector` (`schedule.BalanceSelector`), an external
collaborator: `selectTarget cluster stores excluded` stands for
`SelectTarget(cluster, stores, NewExcludedFilter(nil, excludeStores))`,
with the excluded store ids passed explicitly. -/
structure BalanceSelector where
  selectTarget : Cluster → List Store → List Nat → Option Store

/-- Embeds the reject-leader store collection of `Schedule` (`label.go`
lines 55-61): the ids of the stores whose labels match the
`RejectLeader` label property. The Go code collects them into a set
iterated in arbitrary order; the list model fixes one order, which only
strengthens what the existence theorems may assume. -/
def rejectLeaderStoreIds (cluster : Cluster) : List Nat :=
  (cluster.getStores.filter fun st =>
    cluster.checkLabelProperty rejectLeader st.labels).map Store.id

/-- Embeds the `for id := range rejectLeaderStores` loop of `Schedule`
(`label.go` lines 67-90): for the first id with a random leader region
and a selectable target, return the one transfer-leader operator;
otherwise fall through and return nil. -/
def scheduleLoop (cluster : Cluster) (selector : BalanceSelector) :
    List Nat → List Operator
  | [] => []
  | id :: rest =>
    match cluster.randLeaderRegion id with
    | none => scheduleLoop cluster selector rest
    | some region =>
      let excludeStores := region.downPeers.map Peer.storeId
        ++ region.pendingPeers.map Peer.storeId
      match selector.selectTarget cluster (cluster.getFollowerStores region)
          excludeStores with
      | none => scheduleLoop cluster selector rest
      | some target =>
        [{ desc := "label-reject-leader"
           regionID := region.id
           epoch := region.epoch
           kind := .opLeader
           step := { fromStore := id, toStore := target.id } }]

/-- Embeds `labelScheduler.Schedule` (`label.go` lines 53-93): collect
the reject-leader stores; if none, return nil; otherwise run the
transfer loop. Metric counters and debug logs are elided. -/
def Schedule (cluster : Cluster) (selector : BalanceSelector) :
    List Operator :=
  let rejectStores := rejectLeaderStoreIds cluster
  if rejectStores.isEmpty then []
  else scheduleLoop cluster selector rejectStores

end LabelSched

namespace Syncer

theorem HistoryBuffer.nextIndex_record (h : HistoryBuffer) (r : RegionInfo) :
    (h.record r).nextIndex = h.nextIndex + 1 := by
  unfold HistoryBuffer.record HistoryBuffer.nextIndex
  split
  · simp only [List.length_drop, List.length_append, List.length_singleton]
    omega
  · simp only [List.length_append, List.length_singleton]
    omega

theorem HistoryBuffer.assignedIndices_eq_range (h : HistoryBuffer)
    (rs : List RegionInfo) :
    HistoryBuffer.assignedIndices h rs = List.range' h.nextIndex rs.length := by
  induction rs generalizing h with
  | nil => rfl
  | cons r rest ih =>
      simp only [HistoryBuffer.assignedIndices, List.length_cons, List.range'_succ]
      rw [ih, HistoryBuffer.nextIndex_record]

set_option maxRecDepth 8000 in
/-- C1 counterexample: with 150 notifications available at once (the one
the select received plus 149 still queued), the broadcast loop drains
100 more after the first, so the single batch message carries 101
records — more than the claimed cap of 100 — and 49 notifications
remain queued. -/
theorem runNotify_150_queued_batch_is_101 :
    ¬ ((runNotifyStep 1 ⟨10000, 0, []⟩ ⟨⟨0⟩⟩
          (List.replicate 149 ⟨⟨0⟩⟩)).message.regions.length ≤ 100) ∧
    (runNotifyStep 1 ⟨10000, 0, []⟩ ⟨⟨0⟩⟩
        (List.replicate 149 ⟨⟨0⟩⟩)).message.regions.length = 101 ∧
    (runNotifyStep 1 ⟨10000, 0, []⟩ ⟨⟨0⟩⟩
        (List.replicate 149 ⟨⟨0⟩⟩)).remaining.length = 49 := by
  refine ⟨?_, ?_, ?_⟩ <;> decide

/-- C1 (amended): on a change notification the broadcast loop drains at
most `maxSyncRegionBatchSize = 100` additional already-queued
notifications beyond the triggering one, so the single batch message
carries `1 + min queued 100` records — at most 101 — and the
notifications beyond the drain cap remain queued for a later cycle. -/
theorem runNotify_batch_cap (cid : Nat) (h : HistoryBuffer)
    (first : RegionInfo) (queued : List RegionInfo) :
    (runNotifyStep cid h first queued).message.regions.length
      = 1 + min queued.length maxSyncRegionBatchSize ∧
    (runNotifyStep cid h first queued).message.regions.length ≤ 101 ∧
    (runNotifyStep cid h first queued).remaining
      = queued.drop (min queued.length maxSyncRegionBatchSize) := by
  refine ⟨?_, ?_, rfl⟩ <;> simp [runNotifyStep, maxSyncRegionBatchSize]
  all_goals omega

/-- C6: the batch message's `StartIndex` is the History Buffer index
assigned to the first record of the batch (the buffer's `nextIndex` as
captured just before recording it), the indices assigned to the batch
records are consecutive from there (`List.range'`), and the message
lists the batch records' metadata in recording order — so
`StartIndex + position` recovers each record's assigned index. -/
theorem runNotify_startIndex_of_first_record (cid : Nat) (h : HistoryBuffer)
    (first : RegionInfo) (queued : List RegionInfo) :
    (runNotifyStep cid h first queued).message.startIndex = h.nextIndex ∧
    HistoryBuffer.assignedIndices h
        (first :: queued.take (min queued.length maxSyncRegionBatchSize))
      = List.range' (runNotifyStep cid h first queued).message.startIndex
          (runNotifyStep cid h first queued).message.regions.length ∧
    (runNotifyStep cid h first queued).message.regions
      = (first :: queued.take (min queued.length maxSyncRegionBatchSize)).map
          RegionInfo.meta := by
  refine ⟨rfl, ?_, ?_⟩
  · rw [HistoryBuffer.assignedIndices_eq_range]
    simp [runNotifyStep]
  · simp [runNotifyStep]

/-- C7: on a keep-alive timer fire the broadcast loop emits a heartbeat
message whose region list is empty and whose `StartIndex` is the
History Buffer's current `nextIndex`. -/
theorem runTick_heartbeat (cid : Nat) (h : HistoryBuffer) :
    (runTickStep cid h).regions = [] ∧
    (runTickStep cid h).startIndex = h.nextIndex :=
  ⟨rfl, rfl⟩

/-- C8: a clean end-of-input while awaiting the next request closes the
session without error (`return nil`), while any other receive error
terminates it with a session error. -/
theorem sync_eof_closes_cleanly (cid : Nat) (h : HistoryBuffer) :
    syncStep cid h .eof = .closed ∧
    (syncStep cid h .eof).isSessionError = false ∧
    syncStep cid h .recvError = .transportError ∧
    (syncStep cid h .recvError).isSessionError = true :=
  ⟨rfl, rfl, rfl, rfl⟩

/-- C3: a request whose cluster identifier differs from the server's own
makes the session terminate with the `FailedPrecondition` error carrying
the needed and received ids; no response is sent and no stream is bound,
whatever the request's start index. -/
theorem sync_mismatch_fails_precondition (cid : Nat) (h : HistoryBuffer)
    (request : SyncRegionRequest) (hne : request.clusterId ≠ cid) :
    syncStep cid h (.req request) = .failedPrecondition cid request.clusterId ∧
    (syncStep cid h (.req request)).sent = [] ∧
    (syncStep cid h (.req request)).bound = none := by
  have heq : syncStep cid h (.req request)
      = .failedPrecondition cid request.clusterId := by
    simp [syncStep, hne]
  exact ⟨heq, by rw [heq]; rfl, by rw [heq]; rfl⟩

/-- C3 witness: a concrete mismatched request (server cluster 1, request
cluster 2) at start index 7. -/
theorem sync_mismatch_fails_precondition_witness :
    ((⟨2, ⟨"fa", ["ua"]⟩, 7⟩ : SyncRegionRequest).clusterId ≠ 1) ∧
    (syncStep 1 ⟨10000, 0, []⟩ (.req ⟨2, ⟨"fa", ["ua"]⟩, 7⟩)
        = .failedPrecondition 1 (⟨2, ⟨"fa", ["ua"]⟩, 7⟩ :
            SyncRegionRequest).clusterId ∧
      (syncStep 1 ⟨10000, 0, []⟩ (.req ⟨2, ⟨"fa", ["ua"]⟩, 7⟩)).sent = [] ∧
      (syncStep 1 ⟨10000, 0, []⟩ (.req ⟨2, ⟨"fa", ["ua"]⟩, 7⟩)).bound = none) :=
  ⟨by decide,
   sync_mismatch_fails_precondition 1 ⟨10000, 0, []⟩ ⟨2, ⟨"fa", ["ua"]⟩, 7⟩
     (by decide)⟩

theorem syncHistory_nonempty_single (cid : Nat) (h : HistoryBuffer)
    (request : SyncRegionRequest)
    (hne : h.recordsFrom request.startIndex ≠ []) :
    syncHistoryRegion cid h request
      = [{ clusterId := cid
           regions := (h.recordsFrom request.startIndex).map RegionInfo.meta
           startIndex := request.startIndex }] := by
  unfold syncHistoryRegion
  simp [List.length_eq_zero, hne]

/-- C4 counterexample: a matching-cluster request with a non-empty
replay result but no client URL makes the session hit the out-of-bounds
`GetClientUrls()[0]` access in the establishment log before the replay
stage, so nothing is sent — not the claimed single catch-up response. -/
theorem sync_nonempty_replay_no_urls_panics :
    (⟨10000, 0, [⟨⟨5⟩⟩]⟩ : HistoryBuffer).recordsFrom 0 ≠ [] ∧
    syncStep 1 ⟨10000, 0, [⟨⟨5⟩⟩]⟩ (.req ⟨1, ⟨"fb", []⟩, 0⟩) = .panicked ∧
    (syncStep 1 ⟨10000, 0, [⟨⟨5⟩⟩]⟩ (.req ⟨1, ⟨"fb", []⟩, 0⟩)).sent = [] := by
  refine ⟨?_, ?_, ?_⟩ <;> decide

/-- C4 (amended): for a matching-cluster request whose member carries at
least one client URL and whose replay query is non-empty, the session
sends exactly one catch-up response carrying all returned records'
metadata in order, with the response's start index equal to the
request's. -/
theorem sync_nonempty_replay_sends_catchup (cid : Nat) (h : HistoryBuffer)
    (request : SyncRegionRequest) (hcid : request.clusterId = cid)
    (hurls : request.member.clientUrls ≠ [])
    (hne : h.recordsFrom request.startIndex ≠ []) :
    (syncStep cid h (.req request)).sent
      = [{ clusterId := cid
           regions := (h.recordsFrom request.startIndex).map RegionInfo.meta
           startIndex := request.startIndex }] := by
  have hstep : syncStep cid h (.req request)
      = .proceed (syncHistoryRegion cid h request) request.member.name := by
    simp only [syncStep]
    rw [if_neg (by simp [hcid])]
    cases hu : request.member.clientUrls with
    | nil => exact absurd hu hurls
    | cons u us => simp
  rw [hstep]
  show syncHistoryRegion cid h request = _
  exact syncHistory_nonempty_single cid h request hne

/-- C4 witness: a buffer retaining one record at index 0 and a matching
request from index 0 with a client URL receive the single catch-up
response listing that record. -/
theorem sync_nonempty_replay_sends_catchup_witness :
    ((⟨1, ⟨"fb", ["ub"]⟩, 0⟩ : SyncRegionRequest).clusterId = 1) ∧
    ((⟨1, ⟨"fb", ["ub"]⟩, 0⟩ : SyncRegionRequest).member.clientUrls ≠ []) ∧
    ((⟨10000, 0, [⟨⟨5⟩⟩]⟩ : HistoryBuffer).recordsFrom
        (⟨1, ⟨"fb", ["ub"]⟩, 0⟩ : SyncRegionRequest).startIndex ≠ []) ∧
    (syncStep 1 ⟨10000, 0, [⟨⟨5⟩⟩]⟩ (.req ⟨1, ⟨"fb", ["ub"]⟩, 0⟩)).sent
      = [{ clusterId := 1
           regions := ((⟨10000, 0, [⟨⟨5⟩⟩]⟩ : HistoryBuffer).recordsFrom
             (⟨1, ⟨"fb", ["ub"]⟩, 0⟩ : SyncRegionRequest).startIndex).map
               RegionInfo.meta
           startIndex := (⟨1, ⟨"fb", ["ub"]⟩, 0⟩ :
             SyncRegionRequest).startIndex }] :=
  ⟨by decide, by decide, by decide,
   sync_nonempty_replay_sends_catchup 1 ⟨10000, 0, [⟨⟨5⟩⟩]⟩
     ⟨1, ⟨"fb", ["ub"]⟩, 0⟩ (by decide) (by decide) (by decide)⟩

/-- C5 counterexample: a matching-cluster request whose replay query is
empty but whose member carries no client URL makes the session hit the
out-of-bounds `GetClientUrls()[0]` access in the establishment log, so
it does not proceed to register the stream as claimed. -/
theorem sync_empty_replay_no_urls_panics :
    (⟨10000, 0, []⟩ : HistoryBuffer).recordsFrom 0 = [] ∧
    syncStep 1 ⟨10000, 0, []⟩ (.req ⟨1, ⟨"fc", []⟩, 0⟩) = .panicked ∧
    (syncStep 1 ⟨10000, 0, []⟩ (.req ⟨1, ⟨"fc", []⟩, 0⟩)).bound = none := by
  refine ⟨?_, ?_, ?_⟩ <;> decide

/-- C5 (amended): for a matching-cluster request whose member carries at
least one client URL, an empty replay result — whether the start index
equals `nextIndex` (already current) or not (history evicted) — sends no
catch-up response, raises no session error, and proceeds to bind the
stream under the follower's name. -/
theorem sync_empty_replay_proceeds (cid : Nat) (h : HistoryBuffer)
    (request : SyncRegionRequest) (hcid : request.clusterId = cid)
    (hurls : request.member.clientUrls ≠ [])
    (hempty : h.recordsFrom request.startIndex = []) :
    syncStep cid h (.req request) = .proceed [] request.member.name ∧
    (syncStep cid h (.req request)).sent = [] ∧
    (syncStep cid h (.req request)).bound = some request.member.name ∧
    (syncStep cid h (.req request)).isSessionError = false := by
  have heq : syncStep cid h (.req request)
      = .proceed [] request.member.name := by
    simp only [syncStep]
    rw [if_neg (by simp [hcid])]
    cases hu : request.member.clientUrls with
    | nil => exact absurd hu hurls
    | cons u us => simp [syncHistoryRegion, hempty]
  exact ⟨heq, by rw [heq]; rfl, by rw [heq]; rfl, by rw [heq]; rfl⟩

/-- C5 witness: an empty buffer at watermark 0 and a matching request
from index 5 (history evicted: 5 is not `nextIndex = 0`) proceeds to
bind the follower's stream with nothing sent. -/
theorem sync_empty_replay_proceeds_witness :
    ((⟨1, ⟨"fd", ["ud"]⟩, 5⟩ : SyncRegionRequest).clusterId = 1) ∧
    ((⟨1, ⟨"fd", ["ud"]⟩, 5⟩ : SyncRegionRequest).member.clientUrls ≠ []) ∧
    ((⟨10000, 0, []⟩ : HistoryBuffer).recordsFrom
        (⟨1, ⟨"fd", ["ud"]⟩, 5⟩ : SyncRegionRequest).startIndex = []) ∧
    (syncStep 1 ⟨10000, 0, []⟩ (.req ⟨1, ⟨"fd", ["ud"]⟩, 5⟩)
        = .proceed [] (⟨1, ⟨"fd", ["ud"]⟩, 5⟩ :
            SyncRegionRequest).member.name ∧
      (syncStep 1 ⟨10000, 0, []⟩ (.req ⟨1, ⟨"fd", ["ud"]⟩, 5⟩)).sent = [] ∧
      (syncStep 1 ⟨10000, 0, []⟩ (.req ⟨1, ⟨"fd", ["ud"]⟩, 5⟩)).bound
        = some (⟨1, ⟨"fd", ["ud"]⟩, 5⟩ : SyncRegionRequest).member.name ∧
      (syncStep 1 ⟨10000, 0, []⟩
          (.req ⟨1, ⟨"fd", ["ud"]⟩, 5⟩)).isSessionError = false) :=
  ⟨by decide, by decide, by decide,
   sync_empty_replay_proceeds 1 ⟨10000, 0, []⟩ ⟨1, ⟨"fd", ["ud"]⟩, 5⟩
     (by decide) (by decide) (by decide)⟩

/-- C9: after validation passes, the establishment log indexes the
member's client-URL list at position 0 without a bounds check: with an
empty list the session hits the out-of-bounds access, and with any
non-empty list it does not. -/
theorem sync_clienturls_index_unchecked (cid : Nat) (h : HistoryBuffer)
    (followerName : String) (startIdx : Nat)
    (u : String) (us : List String) :
    syncStep cid h (.req ⟨cid, ⟨followerName, []⟩, startIdx⟩) = .panicked ∧
    syncStep cid h (.req ⟨cid, ⟨followerName, u :: us⟩, startIdx⟩)
      ≠ .panicked := by
  constructor
  · simp only [syncStep]
    rw [if_neg (by simp)]
    rfl
  · simp only [syncStep]
    rw [if_neg (by simp)]
    simp

theorem broadcastCollect_attempted (table : List (String × ServerStream))
    (msg : SyncRegionResponse) :
    (broadcastCollect table msg).2 = table.map Prod.fst := by
  induction table with
  | nil => rfl
  | cons e rest ih =>
      obtain ⟨name, sender⟩ := e
      by_cases hs : sender.sendOk msg <;> simp [broadcastCollect, hs, ih]

theorem broadcastCollect_removed (table : List (String × ServerStream))
    (msg : SyncRegionResponse) :
    (broadcastCollect table msg).1
      = (table.filter fun e => !(e.2.sendOk msg)).map Prod.fst := by
  induction table with
  | nil => rfl
  | cons e rest ih =>
      obtain ⟨name, sender⟩ := e
      by_cases hs : sender.sendOk msg <;>
        simp [broadcastCollect, List.filter_cons, hs, ih]

theorem broadcastCollect_removed_subset (table : List (String × ServerStream))
    (msg : SyncRegionResponse) (n : String)
    (hn : n ∈ (broadcastCollect table msg).1) : n ∈ table.map Prod.fst := by
  rw [broadcastCollect_removed] at hn
  rcases List.mem_map.mp hn with ⟨e, he, rfl⟩
  exact List.mem_map_of_mem _ (List.mem_of_mem_filter he)

theorem deleteStreams_eq_filter (failed : List String)
    (table : List (String × ServerStream)) :
    deleteStreams table failed
      = table.filter fun e => !(failed.contains e.1) := by
  induction failed generalizing table with
  | nil => simp [deleteStreams]
  | cons a as ih =>
      show deleteStreams (table.filter fun e => e.1 ≠ a) as = _
      rw [ih, List.filter_filter]
      refine List.filter_congr ?_
      intro e _
      by_cases he : e.1 = a <;> simp [he, List.contains_cons]

theorem filter_not_removed_eq_sendOk (msg : SyncRegionResponse) :
    ∀ table : List (String × ServerStream), (table.map Prod.fst).Nodup →
    (table.filter fun e => !((broadcastCollect table msg).1.contains e.1))
      = table.filter fun e => e.2.sendOk msg := by
  intro table hnodup
  induction table with
  | nil => rfl
  | cons e rest ih =>
      obtain ⟨name, sender⟩ := e
      simp only [List.map_cons, List.nodup_cons] at hnodup
      obtain ⟨hnin, hnd⟩ := hnodup
      by_cases hs : sender.sendOk msg
      · have hcollect : (broadcastCollect ((name, sender) :: rest) msg).1
            = (broadcastCollect rest msg).1 := by
          simp [broadcastCollect, hs]
        have hname : (broadcastCollect rest msg).1.contains name = false := by
          rw [Bool.eq_false_iff]
          intro hc
          exact hnin (broadcastCollect_removed_subset rest msg name
            (List.elem_iff.mp hc))
        rw [hcollect, List.filter_cons, List.filter_cons,
          if_pos (by rw [hname]; rfl), if_pos hs, ih hnd]
      · have hcollect : (broadcastCollect ((name, sender) :: rest) msg).1
            = name :: (broadcastCollect rest msg).1 := by
          simp [broadcastCollect, hs]
        rw [hcollect, List.filter_cons, List.filter_cons,
          if_neg (by simp [List.contains_cons]), if_neg (by simp [hs])]
        calc rest.filter
              (fun e => !((name :: (broadcastCollect rest msg).1).contains e.1))
            = rest.filter
                (fun e => !((broadcastCollect rest msg).1.contains e.1)) := by
              refine List.filter_congr ?_
              intro e he
              have hne : e.1 ≠ name := fun h12 =>
                hnin (h12 ▸ List.mem_map_of_mem Prod.fst he)
              simp [List.contains_cons, hne]
          _ = rest.filter (fun e => e.2.sendOk msg) := ih hnd

/-- C2: one `broadcast` call attempts a send to every registered entry
(each exactly once, in table order); afterwards the table is the prior
table restricted to exactly the entries whose send succeeded, and the
removed — logged — names are exactly those of the entries whose send
failed, in encounter order, none retried. -/
theorem broadcast_attempts_all_removes_failed
    (table : List (String × ServerStream)) (msg : SyncRegionResponse)
    (hnodup : (table.map Prod.fst).Nodup) :
    (broadcast table msg).attempted = table.map Prod.fst ∧
    (broadcast table msg).removed
      = (table.filter fun e => !(e.2.sendOk msg)).map Prod.fst ∧
    (broadcast table msg).table = table.filter fun e => e.2.sendOk msg := by
  refine ⟨broadcastCollect_attempted table msg,
    broadcastCollect_removed table msg, ?_⟩
  show deleteStreams table (broadcastCollect table msg).1 = _
  rw [deleteStreams_eq_filter]
  exact filter_not_removed_eq_sendOk msg table hnodup

/-- C2 witness: followers "a" (whose send fails) and "b" (whose send
succeeds); after one broadcast, "a" is removed and logged while "b"
stays registered. -/
theorem broadcast_attempts_all_removes_failed_witness :
    (([("a", (⟨fun _ => false⟩ : ServerStream)),
        ("b", ⟨fun _ => true⟩)].map Prod.fst).Nodup) ∧
    ((broadcast [("a", (⟨fun _ => false⟩ : ServerStream)),
          ("b", ⟨fun _ => true⟩)] ⟨1, [], 0⟩).attempted
        = [("a", (⟨fun _ => false⟩ : ServerStream)),
            ("b", ⟨fun _ => true⟩)].map Prod.fst ∧
      (broadcast [("a", (⟨fun _ => false⟩ : ServerStream)),
          ("b", ⟨fun _ => true⟩)] ⟨1, [], 0⟩).removed
        = ([("a", (⟨fun _ => false⟩ : ServerStream)),
            ("b", ⟨fun _ => true⟩)].filter fun e =>
              !(e.2.sendOk ⟨1, [], 0⟩)).map Prod.fst ∧
      (broadcast [("a", (⟨fun _ => false⟩ : ServerStream)),
          ("b", ⟨fun _ => true⟩)] ⟨1, [], 0⟩).table
        = [("a", (⟨fun _ => false⟩ : ServerStream)),
            ("b", ⟨fun _ => true⟩)].filter fun e => e.2.sendOk ⟨1, [], 0⟩) :=
  ⟨by simp,
   broadcast_attempts_all_removes_failed
     [("a", ⟨fun _ => false⟩), ("b", ⟨fun _ => true⟩)] ⟨1, [], 0⟩ (by simp)⟩

end Syncer

namespace LabelSched

theorem mem_rejectLeaderStoreIds (cluster : Cluster) (id : Nat)
    (hid : id ∈ rejectLeaderStoreIds cluster) :
    ∃ st, st ∈ cluster.getStores ∧ st.id = id ∧
      cluster.checkLabelProperty rejectLeader st.labels = true := by
  rcases List.mem_map.mp hid with ⟨st, hst, rfl⟩
  have hm := List.mem_filter.mp hst
  exact ⟨st, hm.1, rfl, hm.2⟩

theorem scheduleLoop_shape (cluster : Cluster) (selector : BalanceSelector)
    (ids : List Nat) :
    scheduleLoop cluster selector ids = [] ∨
    ∃ op id, scheduleLoop cluster selector ids = [op] ∧ id ∈ ids ∧
      op.kind = OperatorKind.opLeader ∧ op.step.fromStore = id := by
  induction ids with
  | nil => exact Or.inl rfl
  | cons id rest ih =>
      simp only [scheduleLoop]
      split
      · rcases ih with h | ⟨op, i, heq, hmem, hk, hf⟩
        · exact Or.inl h
        · exact Or.inr ⟨op, i, heq, List.mem_cons_of_mem id hmem, hk, hf⟩
      · split
        · rcases ih with h | ⟨op, i, heq, hmem, hk, hf⟩
          · exact Or.inl h
          · exact Or.inr ⟨op, i, heq, List.mem_cons_of_mem id hmem, hk, hf⟩
        · exact Or.inr ⟨_, id, rfl, List.mem_cons_self id rest, rfl, rfl⟩

/-- C10: `labelScheduler.Schedule` returns either no operator or exactly
one; in the latter case the operator is the `OpLeader` transfer-leader
operator whose source store is one of the cluster's stores matching the
reject-leader label property — hence when no store matches, the result
is empty. -/
theorem label_schedule_shape (cluster : Cluster) (selector : BalanceSelector) :
    Schedule cluster selector = [] ∨
    ∃ op, Schedule cluster selector = [op] ∧
      op.kind = OperatorKind.opLeader ∧
      ∃ st, st ∈ cluster.getStores ∧
        cluster.checkLabelProperty rejectLeader st.labels = true ∧
        op.step.fromStore = st.id := by
  by_cases hempty : (rejectLeaderStoreIds cluster).isEmpty
  · exact Or.inl (by simp [Schedule, hempty])
  · have hrun : Schedule cluster selector
        = scheduleLoop cluster selector (rejectLeaderStoreIds cluster) := by
      simp [Schedule, hempty]
    rcases scheduleLoop_shape cluster selector (rejectLeaderStoreIds cluster)
        with h | ⟨op, id, heq, hmem, hk, hf⟩
    · exact Or.inl (hrun.trans h)
    · rcases mem_rejectLeaderStoreIds cluster id hmem with ⟨st, hst, hid, hprop⟩
      exact Or.inr ⟨op, hrun.trans heq, hk, st, hst, hprop, by rw [hf, hid]⟩

end LabelSched
